import Mathlib

/-!
Shallow embedding of the interactive core of `kneeboard_gui.py`:
the squawk-code pinpad state (`SquawkCodeInput`) and the notepad
drawing-canvas state (`DrawingCanvas`), with theorems settling the
behavioral claims about them.
-/

/-- State of the `SquawkCodeInput` widget: the squawk code string
(`self.squawk_code`, as a list of characters) and the cursor position
(`self.current_pos`). Display-only attributes (labels, buttons) are not
part of the state. -/
structure SquawkState where
  squawk_code : List Char
  current_pos : Nat
deriving DecidableEq, Repr

/-- Initial state from `SquawkCodeInput.__init__`:
`self.current_pos = 0`, `self.squawk_code = "1200"`. -/
def initSquawk : SquawkState :=
  { squawk_code := "1200".data, current_pos := 0 }

/-- `SquawkCodeInput.update_squawk(digit)`: if `current_pos < 4`, replace
the character at `current_pos` (Python slicing
`code[:pos] + digit + code[pos+1:]`) and advance `current_pos = (current_pos+1) % 4`;
otherwise do nothing. -/
def update_squawk (s : SquawkState) (digit : Char) : SquawkState :=
  if s.current_pos < 4 then
    { squawk_code :=
        s.squawk_code.take s.current_pos ++ [digit] ++
          s.squawk_code.drop (s.current_pos + 1),
      current_pos := (s.current_pos + 1) % 4 }
  else s

/-- `SquawkCodeInput.set_squawk(code)`: replace the code wholesale and
reset `current_pos` to 0. -/
def set_squawk (_s : SquawkState) (code : List Char) : SquawkState :=
  { squawk_code := code, current_pos := 0 }

/-- `SquawkCodeInput.clear_squawk()`: set the code to "0000" and reset
`current_pos` to 0. -/
def clear_squawk (_s : SquawkState) : SquawkState :=
  { squawk_code := "0000".data, current_pos := 0 }

/-- The three operations of the squawk-code entry component. -/
inductive SquawkOp where
  | enterDigit (d : Char)
  | setPreset (c : List Char)
  | clearSquawk
deriving DecidableEq, Repr

/-- One operation applied to a squawk state. -/
def squawkStep (s : SquawkState) : SquawkOp → SquawkState
  | SquawkOp.enterDigit d => update_squawk s d
  | SquawkOp.setPreset c => set_squawk s c
  | SquawkOp.clearSquawk => clear_squawk s

/-- A sequence of operations applied to the initial state. -/
def squawkRun (ops : List SquawkOp) : SquawkState :=
  ops.foldl squawkStep initSquawk

/-- Validity of an operation as constrained by the callers in the GUI:
digits pressed on the pinpad are '0'..'9', presets are 4-digit strings
("1200", "7700"). -/
def validSquawkOp : SquawkOp → Bool
  | SquawkOp.enterDigit d => d.isDigit
  | SquawkOp.setPreset c => c.length == 4 && c.all Char.isDigit
  | SquawkOp.clearSquawk => true

/-- A point recorded by the canvas (tkinter `event.x`, `event.y`). -/
abbrev Point := Int × Int

/-- State of the `DrawingCanvas` widget: the committed strokes
(`self.lines`) and the in-progress stroke (`self.current_line`,
`None` when no stroke is active). The Python flat coordinate list
`[x0, y0, x1, y1, ...]` is modelled as a list of points; drawing-only
attributes (`start_x`, `start_y`, canvas items) are not part of the
state. -/
structure CanvasState where
  lines : List (List Point)
  current_line : Option (List Point)
deriving DecidableEq, Repr

/-- Initial canvas state from `DrawingCanvas.__init__`:
`self.lines = []`, `self.current_line = None`. -/
def initCanvas : CanvasState :=
  { lines := [], current_line := none }

/-- `DrawingCanvas.on_touch_down(event)`: start a new current line
holding exactly the event point (`self.current_line = [event.x, event.y]`).
`self.lines` is untouched. -/
def on_touch_down (s : CanvasState) (p : Point) : CanvasState :=
  { s with current_line := some [p] }

/-- `DrawingCanvas.on_touch_move(event)`: if `self.current_line` is
truthy (not `None` and not empty, per Python truthiness), append the
event point; otherwise do nothing. -/
def on_touch_move (s : CanvasState) (p : Point) : CanvasState :=
  match s.current_line with
  | some l => if l.isEmpty then s else { s with current_line := some (l ++ [p]) }
  | none => s

/-- `DrawingCanvas.on_touch_up(event)`: if `self.current_line` is truthy,
append it to `self.lines` and set `self.current_line = None`. The event
point itself is not used. -/
def on_touch_up (s : CanvasState) (_p : Point) : CanvasState :=
  match s.current_line with
  | some l =>
      if l.isEmpty then s
      else { lines := s.lines ++ [l], current_line := none }
  | none => s

/-- `DrawingCanvas.clear_canvas()`: `self.lines = []`,
`self.current_line = None`. -/
def clear_canvas (_s : CanvasState) : CanvasState :=
  { lines := [], current_line := none }

/-- The pointer events of the stroke-capture component. -/
inductive CanvasEvent where
  | pointerDown (p : Point)
  | pointerMove (p : Point)
  | pointerUp (p : Point)
  | clearAll
deriving DecidableEq, Repr

/-- One event applied to a canvas state. -/
def canvasStep (s : CanvasState) : CanvasEvent → CanvasState
  | CanvasEvent.pointerDown p => on_touch_down s p
  | CanvasEvent.pointerMove p => on_touch_move s p
  | CanvasEvent.pointerUp p => on_touch_up s p
  | CanvasEvent.clearAll => clear_canvas s

/-- A sequence of events applied to the empty canvas state. -/
def canvasRun (es : List CanvasEvent) : CanvasState :=
  es.foldl canvasStep initCanvas

/-! ### Helper lemmas -/

/-- The squawk invariant: 4-character code, cursor in [0,3]. -/
def squawkInv (s : SquawkState) : Prop :=
  s.squawk_code.length = 4 ∧ s.current_pos ≤ 3

lemma squawkStep_inv {s : SquawkState} {op : SquawkOp}
    (hv : validSquawkOp op = true) (h : squawkInv s) :
    squawkInv (squawkStep s op) := by
  obtain ⟨h4, hp⟩ := h
  cases op with
  | enterDigit d =>
      simp only [squawkStep, update_squawk]
      rw [if_pos (by omega)]
      refine ⟨?_, ?_⟩
      · simp only [List.length_append, List.length_take, List.length_drop,
          List.length_cons, List.length_nil]
        omega
      · simp only
        omega
  | setPreset c =>
      simp only [validSquawkOp, Bool.and_eq_true, beq_iff_eq] at hv
      simp only [squawkStep, set_squawk, squawkInv]
      exact ⟨hv.1, by omega⟩
  | clearSquawk =>
      simp only [squawkStep, clear_squawk, squawkInv]
      exact ⟨by decide, by decide⟩

lemma squawkFoldl_inv (ops : List SquawkOp) :
    ∀ s : SquawkState, squawkInv s → (∀ op ∈ ops, validSquawkOp op = true) →
      squawkInv (ops.foldl squawkStep s) := by
  induction ops with
  | nil => exact fun s h _ => h
  | cons op rest ih =>
      intro s h hv
      exact ih _ (squawkStep_inv (hv op (by simp)) h)
        (fun o ho => hv o (by simp [ho]))

lemma list_length_four {α : Type} (l : List α) (h : l.length = 4) :
    ∃ a b c d, l = [a, b, c, d] := by
  rcases l with _ | ⟨a, l⟩
  · simp at h
  rcases l with _ | ⟨b, l⟩
  · simp at h
  rcases l with _ | ⟨c, l⟩
  · simp at h
  rcases l with _ | ⟨d, l⟩
  · simp at h
  rcases l with _ | ⟨e, l⟩
  · exact ⟨a, b, c, d, rfl⟩
  · simp only [List.length_cons] at h
    omega

/-! ### Claims -/

/-- C1: for every sequence of squawk operations (enterDigit with a digit
'0'..'9', setPreset with a 4-digit string, clearSquawk) applied to the
initial state, the code always has exactly 4 characters and the cursor is
always in [0,3]. -/
theorem squawk_invariant (ops : List SquawkOp)
    (hv : ∀ op ∈ ops, validSquawkOp op = true) :
    (squawkRun ops).squawk_code.length = 4 ∧ (squawkRun ops).current_pos ≤ 3 :=
  squawkFoldl_inv ops initSquawk ⟨by decide, by decide⟩ hv

theorem squawk_invariant_witness :
    (∀ op ∈ [SquawkOp.enterDigit '7', SquawkOp.setPreset "0400".data,
        SquawkOp.clearSquawk], validSquawkOp op = true) ∧
    ((squawkRun [SquawkOp.enterDigit '7', SquawkOp.setPreset "0400".data,
        SquawkOp.clearSquawk]).squawk_code.length = 4 ∧
      (squawkRun [SquawkOp.enterDigit '7', SquawkOp.setPreset "0400".data,
        SquawkOp.clearSquawk]).current_pos ≤ 3) :=
  ⟨by decide, squawk_invariant _ (by decide)⟩

/-- C4: on a state satisfying the invariant, `update_squawk d` overwrites
the digit at the cursor with `d`, leaves the other three positions
unchanged, and advances the cursor to `(cursor+1) % 4`; and from the
initial state ("1200", cursor 0), entering 7,7,0,0 yields "7700" with
cursor 0. -/
theorem enterDigit_overwrites (s : SquawkState) (d : Char)
    (h4 : s.squawk_code.length = 4) (hp : s.current_pos ≤ 3) :
    (update_squawk s d).squawk_code.get? s.current_pos = some d ∧
    (∀ i, i < 4 → i ≠ s.current_pos →
      (update_squawk s d).squawk_code.get? i = s.squawk_code.get? i) ∧
    (update_squawk s d).current_pos = (s.current_pos + 1) % 4 ∧
    squawkRun [SquawkOp.enterDigit '7', SquawkOp.enterDigit '7',
        SquawkOp.enterDigit '0', SquawkOp.enterDigit '0'] =
      { squawk_code := "7700".data, current_pos := 0 } := by
  rcases s with ⟨code, pos⟩
  dsimp only at h4 hp ⊢
  obtain ⟨a, b, c, e, rfl⟩ := list_length_four code h4
  interval_cases pos <;>
    refine ⟨rfl, ?_, rfl, by decide⟩ <;>
    · intro i hi hne
      interval_cases i <;> first | rfl | exact absurd rfl hne

theorem enterDigit_overwrites_witness :
    initSquawk.squawk_code.length = 4 ∧ initSquawk.current_pos ≤ 3 ∧
    (update_squawk initSquawk '5').squawk_code.get? initSquawk.current_pos =
      some '5' :=
  ⟨by decide, by decide,
    (enterDigit_overwrites initSquawk '5' (by decide) (by decide)).1⟩

/-- C5: `set_squawk c` replaces the code wholesale with `c` and resets
the cursor to 0; and `set_squawk "7700"` followed by any single
`update_squawk d` overwrites index 0 with `d` and leaves "700" at
indices 1-3. -/
theorem set_squawk_spec (s : SquawkState) (c : List Char) :
    set_squawk s c = { squawk_code := c, current_pos := 0 } ∧
    (∀ d : Char, update_squawk (set_squawk s "7700".data) d =
      { squawk_code := [d, '7', '0', '0'], current_pos := 1 }) :=
  ⟨rfl, fun _ => rfl⟩

/-- C6: `clear_squawk` yields code "0000" and cursor 0 from every prior
state. -/
theorem clear_squawk_spec (s : SquawkState) :
    clear_squawk s = { squawk_code := "0000".data, current_pos := 0 } :=
  rfl

/-- C10: in every state whose cursor is in [0,3], the guard
`current_pos < 4` inside `update_squawk` holds, so the silently-ignoring
branch is unreachable: the call takes the overwriting branch and the
pressed digit is recorded in the code. -/
theorem update_squawk_guard (s : SquawkState) (d : Char)
    (hp : s.current_pos ≤ 3) :
    s.current_pos < 4 ∧
    update_squawk s d =
      { squawk_code :=
          s.squawk_code.take s.current_pos ++ [d] ++
            s.squawk_code.drop (s.current_pos + 1),
        current_pos := (s.current_pos + 1) % 4 } ∧
    d ∈ (update_squawk s d).squawk_code := by
  have hlt : s.current_pos < 4 := by omega
  refine ⟨hlt, ?_, ?_⟩
  · simp only [update_squawk, if_pos hlt]
  · simp [update_squawk, if_pos hlt]

theorem update_squawk_guard_witness :
    initSquawk.current_pos ≤ 3 ∧
    '3' ∈ (update_squawk initSquawk '3').squawk_code :=
  ⟨by decide, (update_squawk_guard initSquawk '3' (by decide)).2.2⟩

/-- Invariant of the canvas: every committed stroke is non-empty. -/
def canvasLinesInv (s : CanvasState) : Prop :=
  ∀ l ∈ s.lines, 1 ≤ l.length

lemma canvasStep_linesInv {s : CanvasState} (e : CanvasEvent)
    (h : canvasLinesInv s) : canvasLinesInv (canvasStep s e) := by
  rcases s with ⟨ls, cl⟩
  cases e with
  | pointerDown p => exact h
  | pointerMove p =>
      rcases cl with _ | l
      · exact h
      · dsimp only [canvasStep, on_touch_move]
        split
        · exact h
        · exact h
  | pointerUp p =>
      rcases cl with _ | l
      · exact h
      · dsimp only [canvasStep, on_touch_up]
        split
        · exact h
        · rename_i hemp
          intro l' hl'
          rcases List.mem_append.1 hl' with hmem | hmem
          · exact h l' hmem
          · rw [List.mem_singleton.1 hmem]
            exact List.length_pos.2 (by simpa using hemp)
  | clearAll =>
      intro l hl
      simp [canvasStep, clear_canvas] at hl

lemma canvasFoldl_linesInv (es : List CanvasEvent) :
    ∀ s : CanvasState, canvasLinesInv s →
      canvasLinesInv (es.foldl canvasStep s) := by
  induction es with
  | nil => exact fun _ h => h
  | cons e rest ih => exact fun s h => ih _ (canvasStep_linesInv e h)

/-- C2 counterexample: from the empty state,
pointerDown(0,0); pointerMove(1,1); pointerUp(2,2) does NOT yield
strokes == [[(0,0),(1,1),(2,2)]]: the up-event point is never appended. -/
theorem pointerUp_scenario_refuted :
    (canvasRun [CanvasEvent.pointerDown (0, 0), CanvasEvent.pointerMove (1, 1),
        CanvasEvent.pointerUp (2, 2)]).lines ≠ [[(0, 0), (1, 1), (2, 2)]] := by
  decide

/-- C2 (amended): on every state with a (non-empty) active stroke,
`on_touch_up p` commits the active stroke as-is — without appending the
event point `p` — to the end of `lines` and clears the active slot; from
the empty state, pointerDown(0,0); pointerMove(1,1); pointerUp(2,2)
yields strokes == [[(0,0),(1,1)]] and no active stroke. -/
theorem on_touch_up_commits (s : CanvasState) (p : Point) (l : List Point)
    (h : s.current_line = some l) (hne : l ≠ []) :
    on_touch_up s p = { lines := s.lines ++ [l], current_line := none } ∧
    canvasRun [CanvasEvent.pointerDown (0, 0), CanvasEvent.pointerMove (1, 1),
        CanvasEvent.pointerUp (2, 2)] =
      { lines := [[(0, 0), (1, 1)]], current_line := none } := by
  refine ⟨?_, by decide⟩
  rcases s with ⟨ls, cl⟩
  dsimp only at h
  subst h
  dsimp only [on_touch_up]
  rw [if_neg (by simpa using hne)]

theorem on_touch_up_commits_witness :
    (on_touch_down initCanvas (3, 4)).current_line = some [(3, 4)] ∧
    ([((3 : Int), (4 : Int))] : List Point) ≠ [] ∧
    on_touch_up (on_touch_down initCanvas (3, 4)) (5, 6) =
      { lines := [[(3, 4)]], current_line := none } :=
  ⟨by decide, by decide,
    (on_touch_up_commits (on_touch_down initCanvas (3, 4)) (5, 6) [(3, 4)]
      (by decide) (by decide)).1⟩

/-- C3 counterexample: from the empty state,
pointerDown(0,0); pointerUp(1,1) commits a stroke with a single point,
so not every committed stroke has at least 2 points. -/
theorem committed_singleton_stroke :
    ¬ (∀ l ∈ (canvasRun [CanvasEvent.pointerDown (0, 0),
        CanvasEvent.pointerUp (1, 1)]).lines, 2 ≤ l.length) := by
  decide

/-- C3 (amended): after every sequence of canvas events starting from the
empty state, every committed stroke contains at least 1 point (a
pointer-up immediately after a pointer-down commits a one-point stroke,
so 2 is not guaranteed). -/
theorem committed_stroke_nonempty (es : List CanvasEvent) (l : List Point)
    (hl : l ∈ (canvasRun es).lines) : 1 ≤ l.length :=
  canvasFoldl_linesInv es initCanvas
    (by intro l' h'; simp [initCanvas] at h') l hl

theorem committed_stroke_nonempty_witness :
    [((0 : Int), (0 : Int))] ∈ (canvasRun [CanvasEvent.pointerDown (0, 0),
        CanvasEvent.pointerUp (1, 1)]).lines ∧
    1 ≤ ([((0 : Int), (0 : Int))] : List Point).length :=
  ⟨by decide,
    committed_stroke_nonempty [CanvasEvent.pointerDown (0, 0),
      CanvasEvent.pointerUp (1, 1)] [((0 : Int), (0 : Int))] (by decide)⟩

/-- C7: on every state, `on_touch_down p` makes the active stroke exactly
[p]; a previously active stroke is discarded without being committed, and
`lines` is unchanged. -/
theorem on_touch_down_spec (s : CanvasState) (p : Point) :
    on_touch_down s p = { lines := s.lines, current_line := some [p] } :=
  rfl

/-- C8: on every state with no active stroke, `on_touch_move p` and
`on_touch_up p` are both no-ops: the state is left entirely unchanged. -/
theorem no_active_stroke_noop (s : CanvasState) (p : Point)
    (h : s.current_line = none) :
    on_touch_move s p = s ∧ on_touch_up s p = s := by
  rcases s with ⟨ls, cl⟩
  dsimp only at h
  subst h
  exact ⟨rfl, rfl⟩

theorem no_active_stroke_noop_witness :
    initCanvas.current_line = none ∧
    on_touch_move initCanvas (1, 2) = initCanvas ∧
    on_touch_up initCanvas (1, 2) = initCanvas :=
  ⟨rfl, (no_active_stroke_noop initCanvas (1, 2) rfl).1,
    (no_active_stroke_noop initCanvas (1, 2) rfl).2⟩

/-- C9: `clear_canvas` yields an empty stroke list and no active stroke
from every prior state. -/
theorem clear_canvas_spec (s : CanvasState) :
    clear_canvas s = { lines := [], current_line := none } :=
  rfl
